import Mathlib

/-!
Shallow embedding of the `flow` coach-evaluation pipeline, covering:

* `tests/coach-evaluation/metrics/tool_correctness.py` — the decision-tree
  `ToolCorrectnessMetric` (nodes: invocation presence, tool identity,
  parameter completeness), its retained `decisions` trace and `is_successful`;
* `tests/coach-evaluation/bridge.py` — `CoachTestBridge.run_test_case`,
  which invokes a subprocess with `check=True` and parses its stdout as JSON;
* `tests/coach-evaluation/test_coach_evaluation.py` — the orchestrator's
  conditional metric-list construction.

Python floats appear only as the literals 0.0, 0.4, 0.7, 0.8, 1.0 and are
compared with `>=`; all comparisons among these literals order the same way
as their exact values, so scores and thresholds are embedded as rationals.
Parameter values are opaque to the metric (`tool.get("parameters", {})` is
only queried for key membership), so the embedding is polymorphic in the
value type `α`.
-/

namespace Flow

/-- An entry of the `expected_tools` list handed to `ToolCorrectnessMetric`:
`tool.get("name")` and `tool.get("requiredParams", [])` (the default `[]`
stands for an absent key). -/
structure ExpectedTool where
  name : String
  requiredParams : List String
deriving DecidableEq, Repr

/-- An entry of the `tool_calls` list found in a test case's metadata:
`tool.get("name")` and `tool.get("parameters", {})`, the latter a mapping
from parameter name to an opaque value. -/
structure ActualTool (α : Type) where
  name : String
  parameters : List (String × α)
deriving DecidableEq, Repr

/-- The `additional_metadata` dictionary, as far as `measure` reads it:
only the `"tool_calls"` key matters, and it may be absent. -/
structure Metadata (α : Type) where
  tool_calls : Option (List (ActualTool α))
deriving DecidableEq, Repr

/-- The slice of deepeval's `LLMTestCase` that `measure` consumes:
`additional_metadata`, which may be `None`. -/
structure LLMTestCase (α : Type) where
  additional_metadata : Option (Metadata α)
deriving DecidableEq, Repr

/-- One retained trace entry: `{"node": ..., "passed": ...}`. -/
structure Decision where
  node : String
  passed : Bool
deriving DecidableEq, Repr

/-- The mutable state of a `ToolCorrectnessMetric` instance: the constructor
arguments plus the `decisions` list (set to `[]` in `__init__`) and the
`score` attribute (absent before the first `measure` call, hence `Option`). -/
structure ToolCorrectnessMetric (α : Type) where
  expected_tools : List ExpectedTool
  threshold : ℚ
  decisions : List Decision
  score : Option ℚ
deriving DecidableEq, Repr

/-- `ToolCorrectnessMetric.__init__(expected_tools, threshold)`:
`self.decisions = []`, and `self.score` is not yet set. -/
def ToolCorrectnessMetric.init {α : Type} (expected_tools : List ExpectedTool)
    (threshold : ℚ) : ToolCorrectnessMetric α :=
  ⟨expected_tools, threshold, [], none⟩

/-- The Python default `threshold=0.8` of `ToolCorrectnessMetric.__init__`. -/
def defaultThreshold : ℚ := 4/5

/-- `(test_case.additional_metadata or {}).get("tool_calls", [])`. -/
def extract_tool_calls {α : Type} (tc : LLMTestCase α) : List (ActualTool α) :=
  match tc.additional_metadata with
  | none => []
  | some md => md.tool_calls.getD []

/-- `ToolCorrectnessMetric._validate_tool_types`: set equality between the
expected tool names and the actual tool names (Python `set` comparison). -/
def validate_tool_types {α : Type} (expected_tools : List ExpectedTool)
    (actual_tools : List (ActualTool α)) : Bool :=
  decide ((expected_tools.map (·.name)).toFinset = (actual_tools.map (·.name)).toFinset)

/-- `ToolCorrectnessMetric._validate_tool_params`: for each expected tool,
`next((t for t in actual_tools if t.get("name") == tool_name), None)` picks
the first actual call with a matching name; a missing match or a required
parameter absent from that call's parameter keys returns `False`. -/
def validate_tool_params {α : Type} (expected_tools : List ExpectedTool)
    (actual_tools : List (ActualTool α)) : Bool :=
  expected_tools.all fun e =>
    match actual_tools.find? (fun t => t.name == e.name) with
    | none => false
    | some t => e.requiredParams.all fun p => (t.parameters.map Prod.fst).contains p

/-- `ToolCorrectnessMetric.measure(test_case)`: the three-node decision tree.
Returns the score together with the instance state after the call (Python
mutates `self.decisions` and `self.score` and returns `self.score`). -/
def ToolCorrectnessMetric.measure {α : Type} (m : ToolCorrectnessMetric α)
    (tc : LLMTestCase α) : ℚ × ToolCorrectnessMetric α :=
  let actual_tools := extract_tool_calls tc
  let tools_called : Bool := 0 < actual_tools.length
  let should_call_tools : Bool := 0 < m.expected_tools.length
  if tools_called ≠ should_call_tools then
    (0, { m with decisions := m.decisions ++ [Decision.mk "tool_decision" false],
                 score := some 0 })
  else if should_call_tools = false then
    (1, { m with score := some 1 })
  else
    let correct_tools := validate_tool_types m.expected_tools actual_tools
    let m2 : ToolCorrectnessMetric α :=
      { m with decisions := m.decisions ++ [Decision.mk "tool_types" correct_tools] }
    if correct_tools = false then
      (2/5, { m2 with score := some (2/5) })
    else
      let correct_params := validate_tool_params m.expected_tools actual_tools
      let m3 : ToolCorrectnessMetric α :=
        { m2 with decisions := m2.decisions ++ [Decision.mk "tool_params" correct_params] }
      if correct_params then
        (1, { m3 with score := some 1 })
      else
        (7/10, { m3 with score := some (7/10) })

/-- `ToolCorrectnessMetric.is_successful()`: `self.score >= self.threshold`;
before any `measure` call `self.score` is unset (an attribute error in
Python), embedded as `none`. -/
def ToolCorrectnessMetric.is_successful {α : Type} (m : ToolCorrectnessMetric α) :
    Option Bool :=
  m.score.map fun s => decide (m.threshold ≤ s)

/-- Pure core of `measure`: the returned score and the trace entries appended
during one call, as a function of the expected tools and the extracted actual
tool calls only.  Used to factor the proofs; `measure_eq_node_eval` shows
`measure` is exactly this core plus the state update. -/
def node_eval {α : Type} (expected_tools : List ExpectedTool)
    (actual_tools : List (ActualTool α)) : ℚ × List Decision :=
  let tools_called : Bool := 0 < actual_tools.length
  let should_call_tools : Bool := 0 < expected_tools.length
  if tools_called ≠ should_call_tools then
    (0, [Decision.mk "tool_decision" false])
  else if should_call_tools = false then
    (1, [])
  else
    let correct_tools := validate_tool_types expected_tools actual_tools
    if correct_tools = false then
      (2/5, [Decision.mk "tool_types" correct_tools])
    else
      let correct_params := validate_tool_params expected_tools actual_tools
      if correct_params then
        (1, [Decision.mk "tool_types" correct_tools,
             Decision.mk "tool_params" correct_params])
      else
        (7/10, [Decision.mk "tool_types" correct_tools,
                Decision.mk "tool_params" correct_params])

theorem measure_eq_node_eval {α : Type} (m : ToolCorrectnessMetric α)
    (tc : LLMTestCase α) :
    m.measure tc =
      ((node_eval m.expected_tools (extract_tool_calls tc)).1,
       { m with
         decisions := m.decisions ++ (node_eval m.expected_tools (extract_tool_calls tc)).2,
         score := some (node_eval m.expected_tools (extract_tool_calls tc)).1 }) := by
  simp only [ToolCorrectnessMetric.measure, node_eval]
  split
  · rfl
  · split
    · cases m
      simp
    · split
      · rfl
      · split <;> simp [List.append_assoc]

theorem node_eval_both_nil {α : Type} : node_eval (α := α) [] [] = (1, []) := by
  simp [node_eval]

theorem node_eval_one_side_nil {α : Type} (expected_tools : List ExpectedTool)
    (actual_tools : List (ActualTool α))
    (h : (actual_tools = [] ∧ expected_tools ≠ []) ∨
         (actual_tools ≠ [] ∧ expected_tools = [])) :
    node_eval expected_tools actual_tools = (0, [Decision.mk "tool_decision" false]) := by
  unfold node_eval
  rcases h with ⟨ha, he⟩ | ⟨ha, he⟩ <;>
    simp [ha, he, List.length_pos]

/-- C1: if exactly one of the expected-tool list and the extracted actual
tool-call list is non-empty, `measure` returns score `0.0`, appends only the
failing node-1 entry, and evaluates no further node. -/
theorem c1_one_side_empty_scores_zero {α : Type} (m : ToolCorrectnessMetric α)
    (tc : LLMTestCase α)
    (h : (extract_tool_calls tc = [] ∧ m.expected_tools ≠ []) ∨
         (extract_tool_calls tc ≠ [] ∧ m.expected_tools = [])) :
    (m.measure tc).1 = 0 ∧
    (m.measure tc).2.decisions = m.decisions ++ [Decision.mk "tool_decision" false] := by
  have hne : node_eval m.expected_tools (extract_tool_calls tc) =
      (0, [Decision.mk "tool_decision" false]) := by
    apply node_eval_one_side_nil
    tauto
  rw [measure_eq_node_eval, hne]
  exact ⟨rfl, rfl⟩

/-- Witness for C1 at a concrete input: one actual call, no expected tool. -/
theorem c1_witness :
    extract_tool_calls
        (LLMTestCase.mk (α := Nat) (some (Metadata.mk (some [ActualTool.mk "unexpected_tool" []]))))
      ≠ [] ∧
    ((ToolCorrectnessMetric.init [] defaultThreshold).measure
        (LLMTestCase.mk (α := Nat)
          (some (Metadata.mk (some [ActualTool.mk "unexpected_tool" []]))))).1 = 0 := by
  refine ⟨by decide, ?_⟩
  exact (c1_one_side_empty_scores_zero
    (ToolCorrectnessMetric.init [] defaultThreshold)
    (LLMTestCase.mk (some (Metadata.mk (some [ActualTool.mk "unexpected_tool" []]))))
    (Or.inr ⟨by decide, rfl⟩)).1

/-- C4: with an empty expected-tool list and no actual tool calls, a fresh
metric at the default threshold `0.8` scores `1.0`, retains no trace entry,
and `is_successful()` returns true. -/
theorem c4_trivial_pass {α : Type} (tc : LLMTestCase α)
    (h : extract_tool_calls tc = []) :
    ((ToolCorrectnessMetric.init [] defaultThreshold).measure tc).1 = 1 ∧
    ((ToolCorrectnessMetric.init [] defaultThreshold).measure tc).2.decisions = [] ∧
    ((ToolCorrectnessMetric.init (α := α) [] defaultThreshold).measure tc).2.is_successful
      = some true := by
  have hm := measure_eq_node_eval (ToolCorrectnessMetric.init (α := α) [] defaultThreshold) tc
  rw [h] at hm
  simp only [ToolCorrectnessMetric.init, node_eval_both_nil] at hm
  simp only [ToolCorrectnessMetric.init, hm]
  refine ⟨by simp, by simp, ?_⟩
  norm_num [ToolCorrectnessMetric.is_successful, defaultThreshold]

/-- Witness for C4: metadata present with an empty `tool_calls` list. -/
theorem c4_witness :
    extract_tool_calls (LLMTestCase.mk (α := Nat) (some (Metadata.mk (some [])))) = [] ∧
    ((ToolCorrectnessMetric.init [] defaultThreshold).measure
        (LLMTestCase.mk (α := Nat) (some (Metadata.mk (some []))))).1 = 1 :=
  ⟨rfl, (c4_trivial_pass (LLMTestCase.mk (some (Metadata.mk (some [])))) rfl).1⟩

/-- C10: when `additional_metadata` is `None` or has no `"tool_calls"` key,
`measure` treats the actual tool calls as empty: score `1.0` when no tools
are expected and `0.0` when some are, with no error. -/
theorem c10_missing_metadata {α : Type} (m : ToolCorrectnessMetric α)
    (tc : LLMTestCase α)
    (h : tc.additional_metadata = none ∨
         ∃ md, tc.additional_metadata = some md ∧ md.tool_calls = none) :
    extract_tool_calls tc = [] ∧
    (m.measure tc).1 = (if m.expected_tools = [] then (1 : ℚ) else 0) := by
  have hext : extract_tool_calls tc = [] := by
    rcases h with h | ⟨md, h1, h2⟩
    · simp [extract_tool_calls, h]
    · simp [extract_tool_calls, h1, h2]
  refine ⟨hext, ?_⟩
  have hm := measure_eq_node_eval m tc
  rw [hext] at hm
  by_cases he : m.expected_tools = []
  · rw [hm, he, node_eval_both_nil]
    simp [he]
  · have hne := node_eval_one_side_nil m.expected_tools ([] : List (ActualTool α))
      (Or.inl ⟨rfl, he⟩)
    rw [hm, hne]
    simp [he]

/-- Witness for C10: `additional_metadata = None` with one expected tool. -/
theorem c10_witness :
    ((LLMTestCase.mk (α := Nat) none).additional_metadata = none ∨
      ∃ md, (LLMTestCase.mk (α := Nat) none).additional_metadata = some md ∧
        md.tool_calls = none) ∧
    ((ToolCorrectnessMetric.init [ExpectedTool.mk "t" []] defaultThreshold).measure
        (LLMTestCase.mk (α := Nat) none)).1 = 0 := by
  refine ⟨Or.inl rfl, ?_⟩
  have := c10_missing_metadata
    (ToolCorrectnessMetric.init (α := Nat) [ExpectedTool.mk "t" []] defaultThreshold)
    (LLMTestCase.mk none) (Or.inl rfl)
  simpa using this.2

theorem eq_nil_of_map_toFinset_eq_empty {β γ : Type} [DecidableEq γ] (f : β → γ)
    (l : List β) (h : (l.map f).toFinset = ∅) : l = [] := by
  cases l with
  | nil => rfl
  | cons x xs =>
    exfalso
    have hx : f x ∈ ((x :: xs).map f).toFinset := by simp
    rw [h] at hx
    simp at hx

theorem node_eval_types_mismatch {α : Type} (expected_tools : List ExpectedTool)
    (actual_tools : List (ActualTool α)) (he : expected_tools ≠ [])
    (ha : actual_tools ≠ [])
    (hv : validate_tool_types expected_tools actual_tools = false) :
    node_eval expected_tools actual_tools = (2/5, [Decision.mk "tool_types" false]) := by
  unfold node_eval
  simp [List.length_pos, he, ha, hv]

theorem node_eval_types_match {α : Type} (expected_tools : List ExpectedTool)
    (actual_tools : List (ActualTool α)) (he : expected_tools ≠ [])
    (ha : actual_tools ≠ [])
    (hv : validate_tool_types expected_tools actual_tools = true) :
    node_eval expected_tools actual_tools =
      if validate_tool_params expected_tools actual_tools then
        (1, [Decision.mk "tool_types" true, Decision.mk "tool_params" true])
      else
        (7/10, [Decision.mk "tool_types" true, Decision.mk "tool_params" false]) := by
  unfold node_eval
  by_cases hp : validate_tool_params expected_tools actual_tools <;>
    simp [List.length_pos, he, ha, hv, hp]

/-- C2: with both sides non-empty and differing tool-name sets, `measure`
returns score `0.4`, whatever the parameter mappings contain. -/
theorem c2_wrong_tool_set_scores_two_fifths {α : Type} (m : ToolCorrectnessMetric α)
    (tc : LLMTestCase α) (hexp : m.expected_tools ≠ [])
    (hact : extract_tool_calls tc ≠ [])
    (hne : (m.expected_tools.map (·.name)).toFinset ≠
           ((extract_tool_calls tc).map (·.name)).toFinset) :
    (m.measure tc).1 = 2/5 := by
  have hv : validate_tool_types m.expected_tools (extract_tool_calls tc) = false := by
    simp [validate_tool_types, hne]
  rw [measure_eq_node_eval,
    node_eval_types_mismatch _ _ hexp hact hv]

/-- Witness for C2: expected tool `a`, actual tool `b`, arbitrary parameter
content on the actual call. -/
theorem c2_witness :
    ((ToolCorrectnessMetric.init (α := Nat) [ExpectedTool.mk "a" []] defaultThreshold).expected_tools ≠ [] ∧
      extract_tool_calls
        (LLMTestCase.mk (α := Nat)
          (some (Metadata.mk (some [ActualTool.mk "b" [("p", 3)]])))) ≠ [] ∧
      ((ToolCorrectnessMetric.init (α := Nat) [ExpectedTool.mk "a" []]
          defaultThreshold).expected_tools.map (·.name)).toFinset ≠
        ((extract_tool_calls
          (LLMTestCase.mk (α := Nat)
            (some (Metadata.mk (some [ActualTool.mk "b" [("p", 3)]]))))).map (·.name)).toFinset) ∧
    ((ToolCorrectnessMetric.init (α := Nat) [ExpectedTool.mk "a" []] defaultThreshold).measure
        (LLMTestCase.mk (α := Nat)
          (some (Metadata.mk (some [ActualTool.mk "b" [("p", 3)]]))))).1 = 2/5 := by
  refine ⟨⟨by decide, by decide, by decide⟩, ?_⟩
  exact c2_wrong_tool_set_scores_two_fifths _ _ (by decide) (by decide) (by decide)

theorem validate_tool_params_iff {α : Type} (expected_tools : List ExpectedTool)
    (actual_tools : List (ActualTool α)) :
    validate_tool_params expected_tools actual_tools = true ↔
      ∀ e ∈ expected_tools, ∃ t,
        actual_tools.find? (fun t => t.name == e.name) = some t ∧
        ∀ p ∈ e.requiredParams, p ∈ t.parameters.map Prod.fst := by
  unfold validate_tool_params
  rw [List.all_eq_true]
  constructor
  · intro h e he
    have := h e he
    cases hf : actual_tools.find? (fun t => t.name == e.name) with
    | none => rw [hf] at this; simp at this
    | some t =>
      rw [hf] at this
      refine ⟨t, rfl, ?_⟩
      intro p hp
      have := List.all_eq_true.mp this p hp
      simpa [List.contains, List.elem_iff] using this
  · intro h e he
    obtain ⟨t, hf, hall⟩ := h e he
    rw [hf]
    rw [List.all_eq_true]
    intro p hp
    simpa [List.contains, List.elem_iff] using hall p hp

theorem find_matching_of_names_eq {α : Type} (expected_tools : List ExpectedTool)
    (actual_tools : List (ActualTool α))
    (heq : (expected_tools.map (·.name)).toFinset =
           (actual_tools.map (·.name)).toFinset)
    (e : ExpectedTool) (he : e ∈ expected_tools) :
    ∃ t, actual_tools.find? (fun t => t.name == e.name) = some t := by
  have h1 : e.name ∈ actual_tools.map (·.name) := by
    have h2 : e.name ∈ (expected_tools.map (·.name)).toFinset := by
      rw [List.mem_toFinset]
      exact List.mem_map.mpr ⟨e, he, rfl⟩
    rw [heq] at h2
    exact List.mem_toFinset.mp h2
  obtain ⟨t, ht, hname⟩ := List.mem_map.mp h1
  have hs : (actual_tools.find? (fun t => t.name == e.name)).isSome := by
    rw [List.find?_isSome]
    exact ⟨t, ht, by simp [hname]⟩
  exact Option.isSome_iff_exists.mp hs

/-- C3: when the expected and actual tool-name sets are equal, the score is
`1.0` or `0.7`, and it is `1.0` exactly when, for every expected tool, the
first actual call with a matching name carries every required parameter name
among its parameter keys (parameter values play no role; an empty
required-parameter list is vacuously satisfied). -/
theorem c3_param_completeness {α : Type} (m : ToolCorrectnessMetric α)
    (tc : LLMTestCase α)
    (heq : (m.expected_tools.map (·.name)).toFinset =
           ((extract_tool_calls tc).map (·.name)).toFinset) :
    ((m.measure tc).1 = 1 ∨ (m.measure tc).1 = 7/10) ∧
    ((m.measure tc).1 = 1 ↔
      ∀ e ∈ m.expected_tools, ∃ t,
        (extract_tool_calls tc).find? (fun t => t.name == e.name) = some t ∧
        ∀ p ∈ e.requiredParams, p ∈ t.parameters.map Prod.fst) := by
  by_cases hexp : m.expected_tools = []
  · have hact : extract_tool_calls tc = [] := by
      apply eq_nil_of_map_toFinset_eq_empty (·.name)
      rw [← heq, hexp]
      rfl
    have hm := measure_eq_node_eval m tc
    rw [hact, hexp, node_eval_both_nil] at hm
    rw [hm]
    constructor
    · exact Or.inl rfl
    · simp [hexp]
  · have hact : extract_tool_calls tc ≠ [] := by
      intro hnil
      apply hexp
      apply eq_nil_of_map_toFinset_eq_empty (·.name)
      rw [heq, hnil]
      rfl
    have hv : validate_tool_types m.expected_tools (extract_tool_calls tc) = true := by
      simp [validate_tool_types, heq]
    have hm := measure_eq_node_eval m tc
    rw [node_eval_types_match _ _ hexp hact hv] at hm
    by_cases hp : validate_tool_params m.expected_tools (extract_tool_calls tc)
    · rw [if_pos hp] at hm
      rw [hm]
      exact ⟨Or.inl rfl, iff_of_true rfl ((validate_tool_params_iff _ _).mp hp)⟩
    · rw [if_neg hp] at hm
      rw [hm]
      refine ⟨Or.inr rfl, iff_of_false ?_ ?_⟩
      · norm_num
      · intro hall
        exact hp ((validate_tool_params_iff _ _).mpr hall)

/-- Witness for C3 at scenario D of the spec: matching tool name, required
parameter `action_text` absent from the actual call, score `0.7`. -/
theorem c3_witness :
    (((ToolCorrectnessMetric.init (α := String)
        [ExpectedTool.mk "add_next_action_to_project" ["project_path", "action_text"]]
        defaultThreshold).expected_tools.map (·.name)).toFinset =
      ((extract_tool_calls
        (LLMTestCase.mk (α := String)
          (some (Metadata.mk (some [ActualTool.mk "add_next_action_to_project"
            [("project_path", "Projects/Test.md")]]))))).map (·.name)).toFinset) ∧
    (((ToolCorrectnessMetric.init (α := String)
        [ExpectedTool.mk "add_next_action_to_project" ["project_path", "action_text"]]
        defaultThreshold).measure
        (LLMTestCase.mk (α := String)
          (some (Metadata.mk (some [ActualTool.mk "add_next_action_to_project"
            [("project_path", "Projects/Test.md")]]))))).1 = 1 ∨
      ((ToolCorrectnessMetric.init (α := String)
        [ExpectedTool.mk "add_next_action_to_project" ["project_path", "action_text"]]
        defaultThreshold).measure
        (LLMTestCase.mk (α := String)
          (some (Metadata.mk (some [ActualTool.mk "add_next_action_to_project"
            [("project_path", "Projects/Test.md")]]))))).1 = 7/10) := by
  refine ⟨by decide, ?_⟩
  exact (c3_param_completeness _ _ (by decide)).1

/-- C9: when the tool-name sets agree, `next(...)` succeeds for every expected
tool (the `if not actual_tool: return False` branch of
`_validate_tool_params` is unreachable), so a `0.7` score can only come from
a required parameter name missing from the matched call's parameter keys. -/
theorem c9_missing_match_unreachable {α : Type} (m : ToolCorrectnessMetric α)
    (tc : LLMTestCase α)
    (heq : (m.expected_tools.map (·.name)).toFinset =
           ((extract_tool_calls tc).map (·.name)).toFinset) :
    (∀ e ∈ m.expected_tools, ∃ t,
        (extract_tool_calls tc).find? (fun t => t.name == e.name) = some t) ∧
    ((m.measure tc).1 = 7/10 →
      ∃ e ∈ m.expected_tools, ∃ t,
        (extract_tool_calls tc).find? (fun t => t.name == e.name) = some t ∧
        ∃ p ∈ e.requiredParams, p ∉ t.parameters.map Prod.fst) := by
  refine ⟨fun e he => find_matching_of_names_eq _ _ heq e he, ?_⟩
  intro hscore
  have hc3 := c3_param_completeness m tc heq
  have hnot1 : ¬ (m.measure tc).1 = 1 := by
    rw [hscore]
    norm_num
  have hnall := (not_iff_not.mpr hc3.2).mp hnot1
  push_neg at hnall
  obtain ⟨e, he, hfail⟩ := hnall
  obtain ⟨t, hf⟩ := find_matching_of_names_eq _ _ heq e he
  refine ⟨e, he, t, hf, ?_⟩
  have := hfail t hf
  push_neg at this
  exact this

/-- Witness for C9: name sets match, required parameter `p` missing. -/
theorem c9_witness :
    (((ToolCorrectnessMetric.init (α := Nat) [ExpectedTool.mk "a" ["p"]]
        defaultThreshold).expected_tools.map (·.name)).toFinset =
      ((extract_tool_calls
        (LLMTestCase.mk (α := Nat)
          (some (Metadata.mk (some [ActualTool.mk "a" []]))))).map (·.name)).toFinset) ∧
    (∀ e ∈ (ToolCorrectnessMetric.init (α := Nat) [ExpectedTool.mk "a" ["p"]]
        defaultThreshold).expected_tools, ∃ t,
      (extract_tool_calls
        (LLMTestCase.mk (α := Nat)
          (some (Metadata.mk (some [ActualTool.mk "a" []]))))).find?
        (fun t => t.name == e.name) = some t) := by
  refine ⟨by decide, ?_⟩
  exact (c9_missing_match_unreachable _ _ (by decide)).1

/-- C5 counterexample: on one concrete instance and test case, measuring a
second time yields the same score but a different retained `decisions` list
(the entries of the first call are still there and are appended to again),
so the trace is not scoped to a single `measure` call. -/
theorem c5_counterexample :
    (((ToolCorrectnessMetric.init (α := Nat) [ExpectedTool.mk "a" []]
          defaultThreshold).measure
        (LLMTestCase.mk (some (Metadata.mk (some [ActualTool.mk "a" []]))))).2.measure
        (LLMTestCase.mk (some (Metadata.mk (some [ActualTool.mk "a" []]))))).2.decisions ≠
      ((ToolCorrectnessMetric.init (α := Nat) [ExpectedTool.mk "a" []]
          defaultThreshold).measure
        (LLMTestCase.mk (some (Metadata.mk (some [ActualTool.mk "a" []]))))).2.decisions ∧
    (((ToolCorrectnessMetric.init (α := Nat) [ExpectedTool.mk "a" []]
          defaultThreshold).measure
        (LLMTestCase.mk (some (Metadata.mk (some [ActualTool.mk "a" []]))))).2.measure
        (LLMTestCase.mk (some (Metadata.mk (some [ActualTool.mk "a" []]))))).1 =
      ((ToolCorrectnessMetric.init (α := Nat) [ExpectedTool.mk "a" []]
          defaultThreshold).measure
        (LLMTestCase.mk (some (Metadata.mk (some [ActualTool.mk "a" []]))))).1 := by
  decide

/-- C5 amended: re-measuring the same test case on the same instance yields
the identical score, and each call appends the identical trace segment, but
the segment accumulates on the instance: after the second call the retained
list holds two copies instead of one. -/
theorem c5_amended_score_stable_trace_accumulates {α : Type}
    (m : ToolCorrectnessMetric α) (tc : LLMTestCase α) :
    ((m.measure tc).2.measure tc).1 = (m.measure tc).1 ∧
    ∃ seg, (m.measure tc).2.decisions = m.decisions ++ seg ∧
      ((m.measure tc).2.measure tc).2.decisions = m.decisions ++ seg ++ seg := by
  have h1 := measure_eq_node_eval m tc
  have h2 := measure_eq_node_eval (m.measure tc).2 tc
  rw [h1] at h2
  refine ⟨?_, (node_eval m.expected_tools (extract_tool_calls tc)).2, ?_, ?_⟩
  · rw [h1, h2]
  · rw [h1]
  · rw [h1, h2]

/-- C6 counterexample: with one expected tool and one matching actual call,
node 1 is evaluated with both sides non-empty and passes, yet the retained
trace holds no `tool_decision` entry — a passing node 1 records nothing. -/
theorem c6_counterexample :
    extract_tool_calls
        (LLMTestCase.mk (α := Nat) (some (Metadata.mk (some [ActualTool.mk "a" []])))) ≠ [] ∧
    (ToolCorrectnessMetric.init (α := Nat) [ExpectedTool.mk "a" []]
        defaultThreshold).expected_tools ≠ [] ∧
    ∀ d ∈ ((ToolCorrectnessMetric.init (α := Nat) [ExpectedTool.mk "a" []]
        defaultThreshold).measure
        (LLMTestCase.mk (some (Metadata.mk (some [ActualTool.mk "a" []]))))).2.decisions,
      d.node ≠ "tool_decision" := by
  decide

/-- C6 amended: node 1 contributes a trace entry only when it fails (covered
by `c1_one_side_empty_scores_zero`); when both sides are non-empty the call
appends exactly the node-2 entry with its outcome and, when node 2 passed,
the node-3 entry with its outcome — never a node-1 entry. -/
theorem c6_amended_trace_records_nodes {α : Type} (m : ToolCorrectnessMetric α)
    (tc : LLMTestCase α) (hexp : m.expected_tools ≠ [])
    (hact : extract_tool_calls tc ≠ []) :
    (m.measure tc).2.decisions =
      m.decisions ++
        (if validate_tool_types m.expected_tools (extract_tool_calls tc) then
          [Decision.mk "tool_types" true,
           Decision.mk "tool_params"
             (validate_tool_params m.expected_tools (extract_tool_calls tc))]
         else [Decision.mk "tool_types" false]) := by
  rw [measure_eq_node_eval]
  by_cases hv : validate_tool_types m.expected_tools (extract_tool_calls tc)
  · rw [node_eval_types_match _ _ hexp hact hv, if_pos hv]
    by_cases hp : validate_tool_params m.expected_tools (extract_tool_calls tc)
    · rw [if_pos hp, hp]
    · rw [if_neg hp, Bool.eq_false_iff.mpr hp]
  · have hv' : validate_tool_types m.expected_tools (extract_tool_calls tc) = false :=
      Bool.eq_false_iff.mpr hv
    rw [node_eval_types_mismatch _ _ hexp hact hv', if_neg hv]

/-- Witness for the amended C6: both sides non-empty, name sets differ, so
only the failing node-2 entry is appended. -/
theorem c6_amended_witness :
    ((ToolCorrectnessMetric.init (α := Nat) [ExpectedTool.mk "a" []]
        defaultThreshold).expected_tools ≠ [] ∧
      extract_tool_calls
        (LLMTestCase.mk (α := Nat) (some (Metadata.mk (some [ActualTool.mk "b" []])))) ≠ []) ∧
    ((ToolCorrectnessMetric.init (α := Nat) [ExpectedTool.mk "a" []]
        defaultThreshold).measure
        (LLMTestCase.mk (some (Metadata.mk (some [ActualTool.mk "b" []]))))).2.decisions =
      (ToolCorrectnessMetric.init (α := Nat) [ExpectedTool.mk "a" []]
        defaultThreshold).decisions ++
        (if validate_tool_types
            (ToolCorrectnessMetric.init (α := Nat) [ExpectedTool.mk "a" []]
              defaultThreshold).expected_tools
            (extract_tool_calls
              (LLMTestCase.mk (α := Nat) (some (Metadata.mk (some [ActualTool.mk "b" []]))))) then
          [Decision.mk "tool_types" true,
           Decision.mk "tool_params"
             (validate_tool_params
               (ToolCorrectnessMetric.init (α := Nat) [ExpectedTool.mk "a" []]
                 defaultThreshold).expected_tools
               (extract_tool_calls
                 (LLMTestCase.mk (α := Nat)
                   (some (Metadata.mk (some [ActualTool.mk "b" []]))))))]
         else [Decision.mk "tool_types" false]) := by
  refine ⟨⟨by decide, by decide⟩, ?_⟩
  exact c6_amended_trace_records_nodes _ _ (by decide) (by decide)

/-! ## Execution bridge (`bridge.py`) -/

/-- JSON values, as produced by `json.loads` on the subprocess stdout. -/
inductive Json where
  | null
  | bool (b : Bool)
  | num (q : ℚ)
  | str (s : String)
  | arr (elems : List Json)
  | obj (fields : List (String × Json))

/-- Dictionary field lookup on a decoded JSON value: `some` only for an
object carrying the key. -/
def Json.getField : Json → String → Option Json
  | .obj fields, k => (fields.find? (fun f => f.1 == k)).map Prod.snd
  | _, _ => none

/-- Outcome of the one `subprocess.run([..], capture_output=True, text=True,
check=True)` call in `run_test_case`, abstracted as the child's exit status
together with the result of `json.loads` on its captured stdout (`none`
when the text is not valid JSON). -/
structure ProcResult where
  exitCode : Int
  stdout_json : Option Json

/-- How one `CoachTestBridge.run_test_case` call ends: `check=True` raises
`subprocess.CalledProcessError` on a non-zero exit, `json.loads` raises
`json.JSONDecodeError` on undecodable stdout, and otherwise the decoded
value is returned unchanged. -/
inductive BridgeOutcome where
  | calledProcessError (exitCode : Int)
  | jsonDecodeError
  | ok (value : Json)

/-- `CoachTestBridge.run_test_case`, as a function of the subprocess outcome:
the exit status is checked first (`check=True`), then stdout is parsed, and
the parsed value is returned with no further validation of its shape. -/
def run_test_case (r : ProcResult) : BridgeOutcome :=
  if r.exitCode ≠ 0 then
    BridgeOutcome.calledProcessError r.exitCode
  else
    match r.stdout_json with
    | none => BridgeOutcome.jsonDecodeError
    | some v => BridgeOutcome.ok v

/-- C7 counterexample: a zero-exit process whose stdout decodes to the JSON
object `{}` — well-formed JSON with neither a message list nor a tool-call
list — makes `run_test_case` return the value instead of failing, so output
missing the required fields is not rejected. -/
theorem c7_counterexample :
    run_test_case (ProcResult.mk 0 (some (Json.obj []))) =
      BridgeOutcome.ok (Json.obj []) ∧
    (Json.obj []).getField "messages" = none ∧
    (Json.obj []).getField "toolCalls" = none :=
  ⟨rfl, rfl, rfl⟩

/-- C7 amended: `run_test_case` fails on a non-zero exit status (with
`subprocess.CalledProcessError`, not a `BridgeExecutionError` type, which
does not exist in the code) and fails on undecodable stdout (with
`json.JSONDecodeError`, not a `BridgeProtocolError`); it succeeds exactly
when the process exits zero and stdout decodes, returning the decoded value
without checking that it contains message or tool-call lists. -/
theorem c7_amended_run_test_case (r : ProcResult) :
    (r.exitCode ≠ 0 → run_test_case r = BridgeOutcome.calledProcessError r.exitCode) ∧
    (r.exitCode = 0 → r.stdout_json = none → run_test_case r = BridgeOutcome.jsonDecodeError) ∧
    (∀ v, run_test_case r = BridgeOutcome.ok v ↔
      r.exitCode = 0 ∧ r.stdout_json = some v) := by
  refine ⟨fun h => by simp [run_test_case, h], fun h0 hn => by simp [run_test_case, h0, hn], ?_⟩
  intro v
  constructor
  · intro h
    by_cases he : r.exitCode = 0
    · refine ⟨he, ?_⟩
      cases hs : r.stdout_json with
      | none => simp [run_test_case, he, hs] at h
      | some w =>
        simp only [run_test_case, he, hs] at h
        simp at h
        rw [h]
    · simp [run_test_case, he] at h
  · rintro ⟨he, hs⟩
    simp [run_test_case, he, hs]

/-- Witness for C7 amended: a non-zero exit and a zero-exit undecodable
stdout, both at concrete inputs. -/
theorem c7_amended_witness :
    ((1 : Int) ≠ 0 ∧
      run_test_case (ProcResult.mk 1 none) = BridgeOutcome.calledProcessError 1) ∧
    ((0 : Int) = 0 ∧
      run_test_case (ProcResult.mk 0 none) = BridgeOutcome.jsonDecodeError) := by
  refine ⟨⟨by decide, ?_⟩, ⟨rfl, ?_⟩⟩
  · exact (c7_amended_run_test_case (ProcResult.mk 1 none)).1 (by decide)
  · exact (c7_amended_run_test_case (ProcResult.mk 0 none)).2.1 rfl rfl

/-! ## Evaluation orchestrator (`test_coach_evaluation.py`) -/

/-- The expectations block of a TestCase as `test_coach_evaluation` reads it:
an optional `toolUsage` list of expected tools and an optional
`coachingQuality` block, of which only the `threshold` reaches the metric
construction. -/
structure Expectations where
  toolUsage : Option (List ExpectedTool)
  coachingQuality : Option ℚ

/-- The metric objects `test_coach_evaluation` appends to its list:
`ToolCorrectnessMetric(expected_tools, threshold=0.8)`,
`create_coaching_quality_metric(threshold=...)`, and
`AnswerRelevancyMetric(threshold=0.7)`. -/
inductive MetricSpec where
  | toolCorrectness (expected_tools : List ExpectedTool) (threshold : ℚ)
  | coachingQuality (threshold : ℚ)
  | answerRelevancy (threshold : ℚ)
deriving DecidableEq, Repr

/-- The metric-list construction of `test_coach_evaluation`: the
tool-correctness metric iff `"toolUsage"` is present, the coaching-quality
metric iff `"coachingQuality"` is present, and the answer-relevancy metric
always. -/
def build_metrics (e : Expectations) : List MetricSpec :=
  (match e.toolUsage with
   | some tool_expectations =>
      [MetricSpec.toolCorrectness tool_expectations (4/5)]
   | none => []) ++
  (match e.coachingQuality with
   | some th => [MetricSpec.coachingQuality th]
   | none => []) ++
  [MetricSpec.answerRelevancy (7/10)]

/-- Modelled from the spec: deepeval's `assert_test` (a third-party library
call, not code under src/) makes the test case pass overall iff every
included metric's verdict passes. -/
def assert_test (verdicts : List Bool) : Bool := verdicts.all id

/-- One orchestrated case: every metric in the constructed list is evaluated
against the same transcript — a single verdict function for the case — and
the outcome aggregates them through `assert_test`. -/
def run_case (e : Expectations) (verdict : MetricSpec → Bool) : Bool :=
  assert_test ((build_metrics e).map verdict)

/-- C8: the metric list contains a tool-correctness metric iff `toolUsage`
expectations are present, a coaching-quality metric iff `coachingQuality`
expectations are present, and always the answer-relevancy metric; the case
passes overall iff every metric in the list passes against the case's one
transcript. -/
theorem c8_orchestrator (e : Expectations) (verdict : MetricSpec → Bool) :
    ((∃ tools, e.toolUsage = some tools) ↔
      ∃ tools th, MetricSpec.toolCorrectness tools th ∈ build_metrics e) ∧
    ((∃ th, e.coachingQuality = some th) ↔
      ∃ th, MetricSpec.coachingQuality th ∈ build_metrics e) ∧
    MetricSpec.answerRelevancy (7/10) ∈ build_metrics e ∧
    (run_case e verdict = true ↔ ∀ ms ∈ build_metrics e, verdict ms = true) := by
  refine ⟨?_, ?_, ?_, ?_⟩
  · cases ht : e.toolUsage with
    | none =>
      cases hq : e.coachingQuality with
      | none => simp [build_metrics, ht, hq]
      | some th => simp [build_metrics, ht, hq]
    | some tools =>
      cases hq : e.coachingQuality with
      | none => simp [build_metrics, ht, hq]
      | some th => simp [build_metrics, ht, hq]
  · cases hq : e.coachingQuality with
    | none =>
      cases ht : e.toolUsage with
      | none => simp [build_metrics, ht, hq]
      | some tools => simp [build_metrics, ht, hq]
    | some th =>
      cases ht : e.toolUsage with
      | none => simp [build_metrics, ht, hq]
      | some tools => simp [build_metrics, ht, hq]
  · simp [build_metrics]
  · simp [run_case, assert_test, List.all_eq_true]

end Flow
